import Mathlib

/-!
Verification development for the on-prem file download gateway.

The system has two halves:
* the server (`server.js`): a connection registry (a JS `Map` from client id
  to connection record), a receiver-side assembler (`handleFileChunk`,
  `handleFileComplete`, `handleClientError`), a close handler that unregisters
  a connection, and a request orchestrator (`requestFileDownload`);
* the client (sender): `handleDownloadRequest` reads the configured file and
  emits base64-encoded chunk messages followed by a completion message.

The embedding below models JS strings as `List Char`, byte buffers as
`List Nat` (each element intended `< 256`), and the server's mutable state as
an explicit `ServerState` record threaded through the handlers.  The JS `Map`
is modelled as an association list in insertion order: `Map.set` replaces an
existing key in place and appends a new key at the end, `Map.delete` removes
the unique entry of a key, and iteration (used by the connection-close
handler) visits entries in list order, matching JS semantics.  Write streams
(`fs.createWriteStream`) are modelled as an ordered list of `Sink` records;
a stream handle is the index of its sink in that list.
-/

/-- Character list of a string literal (JS strings are modelled as `List Char`). -/
def chars (s : String) : List Char := s.data

/-! ## Base64 codec

The client encodes every chunk with `Buffer.toString('base64')` and the
server decodes with `Buffer.from(chunk, 'base64')`.  This is standard base64
with the usual alphabet and trailing padding. -/

/-- Standard base64 alphabet used by Node buffers. -/
def b64Alphabet : List Char :=
  chars ("ABCDEFGHIJKLMNOPQRSTUVWXYZabcdefghijklmnopqrstuvwxyz0123456789+/")

/-- Character for a six-bit group. -/
def sextetChar (n : Nat) : Char := b64Alphabet.getD n 'A'

/-- Index of a character in a character list (0 when absent at the end). -/
def indexOfChar : List Char → Char → Nat
  | [], _ => 0
  | x :: rest, c => if x = c then 0 else indexOfChar rest c + 1

/-- Six-bit value of a base64 character. -/
def charSextet (c : Char) : Nat := indexOfChar b64Alphabet c

/-- Base64 encoding of a byte list, three bytes to four characters, with
trailing padding exactly as produced by Node buffers. -/
def base64Encode : List Nat → List Char
  | [] => []
  | [b0] =>
      [sextetChar (b0 / 4), sextetChar (b0 % 4 * 16), '=', '=']
  | [b0, b1] =>
      [sextetChar (b0 / 4), sextetChar (b0 % 4 * 16 + b1 / 16),
       sextetChar (b1 % 16 * 4), '=']
  | b0 :: b1 :: b2 :: rest =>
      sextetChar (b0 / 4) :: sextetChar (b0 % 4 * 16 + b1 / 16) ::
      sextetChar (b1 % 16 * 4 + b2 / 64) :: sextetChar (b2 % 64) ::
      base64Encode rest

/-- Base64 decoding of a character list, four characters to three bytes,
with the padding characters of the final group discarded. -/
def base64Decode : List Char → List Nat
  | c0 :: c1 :: c2 :: c3 :: rest =>
      if c2 = '=' then
        [charSextet c0 * 4 + charSextet c1 / 16]
      else if c3 = '=' then
        [charSextet c0 * 4 + charSextet c1 / 16,
         charSextet c1 % 16 * 16 + charSextet c2 / 4]
      else
        (charSextet c0 * 4 + charSextet c1 / 16) ::
        (charSextet c1 % 16 * 16 + charSextet c2 / 4) ::
        (charSextet c2 % 4 * 64 + charSextet c3) ::
        base64Decode rest
  | _ => []

/-! ## Decimal rendering of timestamps

The orchestrator builds session identifiers by string interpolation of
`Date.now()`; JS renders the integer in decimal.  The renderer is written
with explicit fuel so that it reduces inside the kernel. -/

/-- Decimal digit character. -/
def digitChar : Nat → Char
  | 0 => '0' | 1 => '1' | 2 => '2' | 3 => '3' | 4 => '4'
  | 5 => '5' | 6 => '6' | 7 => '7' | 8 => '8' | _ => '9'

/-- Fuelled most-significant-first decimal rendering loop. -/
def natToDecimalGo : Nat → Nat → List Char → List Char
  | 0, _, acc => acc
  | _ + 1, 0, acc => acc
  | fuel + 1, n + 1, acc =>
      natToDecimalGo fuel ((n + 1) / 10) (digitChar ((n + 1) % 10) :: acc)

/-- Decimal rendering of a natural number, as JS string interpolation does. -/
def natToDecimal (n : Nat) : List Char :=
  if n = 0 then ['0'] else natToDecimalGo n n []

/-! ## Chunking

The client reads its file through a stream with `highWaterMark` set to the
configured chunk size, so the emitted buffers are the consecutive pieces of
the file of exactly that size except for a shorter final piece.  Written with
fuel (the list length suffices) so that it reduces inside the kernel. -/

/-- Fuelled splitting of a byte list into consecutive pieces of size `k`. -/
def chunksOfGo (k : Nat) : Nat → List Nat → List (List Nat)
  | _, [] => []
  | 0, _ :: _ => []
  | fuel + 1, x :: xs =>
      (x :: xs.take (k - 1)) :: chunksOfGo k fuel (xs.drop (k - 1))

/-- Split a byte list into consecutive chunks of size `k` (final chunk may be
shorter).  For every positive `k` this is the sequence of buffers a Node read
stream with `highWaterMark = k` delivers. -/
def chunksOf (k : Nat) (l : List Nat) : List (List Nat) :=
  chunksOfGo k l.length l

/-- Concatenation of a list of byte chunks. -/
def flattenBytes : List (List Nat) → List Nat
  | [] => []
  | c :: rest => c ++ flattenBytes rest

/-- Receiver-side assembly: decode each base64 payload in arrival order and
append it to the sink, exactly what `handleFileChunk` does per chunk. -/
def receiverAssemble : List (List Char) → List Nat
  | [] => []
  | p :: rest => base64Decode p ++ receiverAssemble rest

/-! ## Wire messages

The tagged union of envelopes exchanged on a connection, following the
`data.type` dispatch in both programs.  Chunk payloads travel as base64 text. -/

/-- Message envelope. -/
inductive Msg where
  | register (clientId : List Char)
  | registered (clientId : List Char)
  | downloadRequest (downloadId : List Char)
  | fileChunk (clientId downloadId : List Char) (chunk : List Char) (chunkIndex : Nat)
  | fileComplete (clientId downloadId : List Char) (totalChunks fileSize : Nat)
  | error (clientId downloadId : List Char) (errMessage : List Char)
  deriving DecidableEq

/-! ## Server state -/

/-- An `fs.createWriteStream` sink: its target path, the bytes written so
far, and whether `end()` has been called. -/
structure Sink where
  path : List Char
  bytes : List Nat
  closed : Bool
  deriving DecidableEq

/-- The `client.currentDownload` record created by `handleFileChunk` on the
first chunk: download id, sink path, the stream handle (index into the sink
list), chunk counter and start time. -/
structure Download where
  id : List Char
  filePath : List Char
  sinkIdx : Nat
  chunksReceived : Nat
  startTime : Nat
  deriving DecidableEq

/-- A registry entry stored in the `clients` map: connection handle (a
numeric identity for the WebSocket), client id, registration time, and the
optional in-flight download. -/
structure ClientEntry where
  wsId : Nat
  id : List Char
  connectedAt : Nat
  currentDownload : Option Download
  deriving DecidableEq

/-- Whole-server state: the `clients` map in insertion order, every write
stream ever created (in creation order), and the log of messages the server
sent, tagged with the destination connection. -/
structure ServerState where
  clients : List (List Char × ClientEntry)
  sinks : List Sink
  outbox : List (Nat × Msg)
  deriving DecidableEq

/-- Empty initial server state. -/
def initialState : ServerState := { clients := [], sinks := [], outbox := [] }

/-- First value stored under a key, JS `Map.get` (keys are unique in a JS map). -/
def lookupClient : List (List Char × ClientEntry) → List Char → Option ClientEntry
  | [], _ => none
  | (k, v) :: rest, key => if k = key then some v else lookupClient rest key

/-- JS `Map.set`: replace an existing key in place, else append at the end. -/
def clientsSet : List (List Char × ClientEntry) → List Char → ClientEntry →
    List (List Char × ClientEntry)
  | [], key, v => [(key, v)]
  | (k, w) :: rest, key, v =>
      if k = key then (k, v) :: rest else (k, w) :: clientsSet rest key v

/-- The `ws.on('close')` scan: walk the map in insertion order, delete the
first entry whose connection matches, then `break`. -/
def removeFirstByWs : List (List Char × ClientEntry) → Nat →
    List (List Char × ClientEntry)
  | [], _ => []
  | (k, v) :: rest, w =>
      if v.wsId = w then rest else (k, v) :: removeFirstByWs rest w

/-- Append bytes to the sink at a stream handle (`stream.write(buffer)`). -/
def sinkWrite : List Sink → Nat → List Nat → List Sink
  | [], _, _ => []
  | s :: rest, 0, bs => { s with bytes := s.bytes ++ bs } :: rest
  | s :: rest, i + 1, bs => s :: sinkWrite rest i bs

/-- Close the sink at a stream handle (`stream.end()`). -/
def sinkClose : List Sink → Nat → List Sink
  | [], _ => []
  | s :: rest, 0 => { s with closed := true } :: rest
  | s :: rest, i + 1 => s :: sinkClose rest i

/-- Download directory (`DOWNLOAD_DIR`, configured or defaulted). -/
def downloadDir : List Char := chars ("downloads")

/-- Sink file name, `clientId_downloadId_file_to_download.txt` as built by
`handleFileChunk`. -/
def mkFileName (clientId downloadId : List Char) : List Char :=
  clientId ++ chars ("_") ++ downloadId ++ chars ("_file_to_download.txt")

/-- Sink path, `path.join(DOWNLOAD_DIR, fileName)`. -/
def mkFilePath (clientId downloadId : List Char) : List Char :=
  downloadDir ++ chars ("/") ++ mkFileName clientId downloadId

/-- Session identifier generated by the orchestrator at time `now`:
the string interpolation of `download_` with `Date.now()`.  Note the code
attaches no random suffix. -/
def downloadIdAt (now : Nat) : List Char :=
  chars ("download_") ++ natToDecimal now

/-! ## Server handlers, translated one-for-one from `server.js`. -/

/-- Handler of `register` messages: store a fresh entry under the announced
client id (last write wins) and acknowledge with a `registered` envelope. -/
def handleClientRegistration (st : ServerState) (ws : Nat) (clientId : List Char)
    (now : Nat) : ServerState :=
  { st with
    clients := clientsSet st.clients clientId
      { wsId := ws, id := clientId, connectedAt := now, currentDownload := none },
    outbox := st.outbox ++ [(ws, Msg.registered clientId)] }

/-- Handler of `file-chunk` messages.  The message is routed by its
`clientId` field; a missing client is ignored.  If the entry has no current
download, one is initialised with a fresh write stream (the `chunkIndex`
field of the message is never consulted, and an existing download is used
whatever `downloadId` the message carries).  The payload is base64-decoded
and appended to the download's stream, and the chunk counter incremented. -/
def handleFileChunk (st : ServerState) (clientId downloadId chunk : List Char)
    (now : Nat) : ServerState :=
  match lookupClient st.clients clientId with
  | none => st
  | some client =>
      match client.currentDownload with
      | some dl =>
          let dl2 : Download := { dl with chunksReceived := dl.chunksReceived + 1 }
          let client2 : ClientEntry := { client with currentDownload := some dl2 }
          { st with
            sinks := sinkWrite st.sinks dl.sinkIdx (base64Decode chunk),
            clients := clientsSet st.clients clientId client2 }
      | none =>
          let filePath := mkFilePath clientId downloadId
          let dl : Download :=
            { id := downloadId, filePath := filePath, sinkIdx := st.sinks.length,
              chunksReceived := 0, startTime := now }
          let dl2 : Download := { dl with chunksReceived := dl.chunksReceived + 1 }
          let client2 : ClientEntry := { client with currentDownload := some dl2 }
          { st with
            sinks := sinkWrite
              (st.sinks ++ [{ path := filePath, bytes := [], closed := false }])
              dl.sinkIdx (base64Decode chunk),
            clients := clientsSet st.clients clientId client2 }

/-- Handler of `file-complete` messages: routed by `clientId`; when a current
download exists its stream is ended, statistics are logged, and the download
record is deleted.  The message's `downloadId`, `totalChunks` and `fileSize`
are used for logging only. -/
def handleFileComplete (st : ServerState) (clientId _downloadId : List Char)
    (_totalChunks _fileSize : Nat) : ServerState :=
  match lookupClient st.clients clientId with
  | none => st
  | some client =>
      match client.currentDownload with
      | none => st
      | some dl =>
          let client2 : ClientEntry := { client with currentDownload := none }
          { st with
            sinks := sinkClose st.sinks dl.sinkIdx,
            clients := clientsSet st.clients clientId client2 }

/-- Handler of `error` messages: the code only logs the error and touches no
state at all. -/
def handleClientError (st : ServerState) (_clientId _errMessage : List Char) :
    ServerState :=
  st

/-- Connection-close handler: remove the first registry entry whose
connection matches, then stop.  Nothing else is touched. -/
def handleWsClose (st : ServerState) (ws : Nat) : ServerState :=
  { st with clients := removeFirstByWs st.clients ws }

/-- Result object resolved by `requestFileDownload`. -/
structure InitResult where
  clientId : List Char
  downloadId : List Char
  status : List Char
  deriving DecidableEq

/-- The request orchestrator: reject with `Client <id> is not connected` when
the registry misses, else build the session id from the current time, send
one `download-request` envelope over that client's connection, and resolve
`{clientId, downloadId, status: 'initiated'}` immediately, without waiting
for any chunk or completion message. -/
def requestFileDownload (st : ServerState) (clientId : List Char) (now : Nat) :
    Except (List Char) (InitResult × ServerState) :=
  match lookupClient st.clients clientId with
  | none =>
      Except.error (chars ("Client ") ++ clientId ++ chars (" is not connected"))
  | some client =>
      let downloadId := downloadIdAt now
      Except.ok
        ({ clientId := clientId, downloadId := downloadId,
           status := chars ("initiated") },
         { st with outbox :=
             st.outbox ++ [(client.wsId, Msg.downloadRequest downloadId)] })

/-! ## Server event loop -/

/-- An external stimulus of the server: a message arriving on a connection, a
connection closing, or the administrative layer triggering a download. -/
inductive Event where
  | wsMessage (ws : Nat) (m : Msg) (now : Nat)
  | wsClose (ws : Nat)
  | apiDownload (clientId : List Char) (now : Nat)
  deriving DecidableEq

/-- One step of the server: the `data.type` dispatch of the message handler,
the close handler, and the REST trigger (whose rejection leaves the state
unchanged).  Note `file-chunk`, `file-complete` and `error` are routed by the
client id inside the message; the connection `ws` they arrived on is not
consulted. -/
def serverStep (st : ServerState) : Event → ServerState
  | Event.wsMessage w m now =>
      match m with
      | Msg.register cid => handleClientRegistration st w cid now
      | Msg.fileChunk cid did ch _ci => handleFileChunk st cid did ch now
      | Msg.fileComplete cid did tc fsz => handleFileComplete st cid did tc fsz
      | Msg.error cid _did e => handleClientError st cid e
      | _ => st
  | Event.wsClose w => handleWsClose st w
  | Event.apiDownload cid now =>
      match requestFileDownload st cid now with
      | Except.ok (_, st2) => st2
      | Except.error _ => st

/-- Run the server over a list of events. -/
def serverRun (st : ServerState) (evs : List Event) : ServerState :=
  evs.foldl serverStep st

/-- Snapshot used by the REST layer: whether a client currently has an active
download (`!!client.currentDownload`). -/
def hasActiveDownload (st : ServerState) (clientId : List Char) : Bool :=
  match lookupClient st.clients clientId with
  | some c => c.currentDownload.isSome
  | none => false

/-- Identifier of the current download of a client, when one is open. -/
def currentDownloadIdOf (st : ServerState) (clientId : List Char) :
    Option (List Char) :=
  match lookupClient st.clients clientId with
  | some c => (c.currentDownload).map Download.id
  | none => none

/-- Number of `download-request` envelopes in a sent-message log. -/
def downloadRequestCount : List (Nat × Msg) → Nat
  | [] => 0
  | (_, Msg.downloadRequest _) :: rest => downloadRequestCount rest + 1
  | _ :: rest => downloadRequestCount rest

/-! ## Sender side (client role)

The client's `handleDownloadRequest` checks the file, then streams it: the
read stream delivers consecutive buffers of the configured chunk size, each
sent as a `file-chunk` envelope with a running `chunkIndex` starting at 0;
at end-of-source one `file-complete` envelope carries the final `chunkIndex`
as `totalChunks` and the stat size as `fileSize`.  The pause/resume flow
control changes timing only, not the emitted sequence, so the loop below
carries exactly the two counters of the code (`chunkIndex`,
`totalBytesSent`). -/

/-- Chunk-emission loop of the client: one `file-chunk` per buffer, then the
single `file-complete`. -/
def senderLoop (clientId downloadId : List Char) (fileSize : Nat) :
    List (List Nat) → Nat → Nat → List Msg
  | [], chunkIndex, _ =>
      [Msg.fileComplete clientId downloadId chunkIndex fileSize]
  | c :: rest, chunkIndex, totalBytesSent =>
      Msg.fileChunk clientId downloadId (base64Encode c) chunkIndex ::
      senderLoop clientId downloadId fileSize rest (chunkIndex + 1)
        (totalBytesSent + c.length)

/-- Client handler of `download-request`: `none` models a missing file (the
`fs.existsSync` guard fails and a single `error` envelope is sent); otherwise
the file bytes are streamed in chunks of `chunkSize`. -/
def handleDownloadRequest (clientId downloadId : List Char)
    (file : Option (List Nat)) (chunkSize : Nat) : List Msg :=
  match file with
  | none => [Msg.error clientId downloadId (chars ("File not found"))]
  | some bytes =>
      senderLoop clientId downloadId bytes.length (chunksOf chunkSize bytes) 0 0

/-- Sequence indices of the `file-chunk` envelopes of a message list, in
order. -/
def chunkIndices : List Msg → List Nat
  | [] => []
  | Msg.fileChunk _ _ _ i :: rest => i :: chunkIndices rest
  | _ :: rest => chunkIndices rest

/-- The `(totalChunks, fileSize)` payloads of the `file-complete` envelopes
of a message list, in order. -/
def completeInfos : List Msg → List (Nat × Nat)
  | [] => []
  | Msg.fileComplete _ _ tc fsz :: rest => (tc, fsz) :: completeInfos rest
  | _ :: rest => completeInfos rest

/-! ## Concrete states and traces used as witnesses and counterexamples -/

/-- A registry entry for client `c` on connection 1 with no open download. -/
def idleEntry : ClientEntry :=
  { wsId := 1, id := chars ("c"), connectedAt := 0, currentDownload := none }

/-- A server state whose registry holds exactly the idle client `c`. -/
def idleState : ServerState :=
  { clients := [(chars ("c"), idleEntry)], sinks := [], outbox := [] }

/-- A download record of session `download_7` for client `c`, with one chunk
already written to sink 0. -/
def busyDownload : Download :=
  { id := downloadIdAt 7, filePath := mkFilePath (chars ("c")) (downloadIdAt 7),
    sinkIdx := 0, chunksReceived := 1, startTime := 1 }

/-- A registry entry for client `c` on connection 1 with `busyDownload` open. -/
def busyEntry : ClientEntry :=
  { wsId := 1, id := chars ("c"), connectedAt := 0,
    currentDownload := some busyDownload }

/-- A server state whose registry holds client `c` with an open download and
whose single sink is the open stream of that download. -/
def busyState : ServerState :=
  { clients := [(chars ("c"), busyEntry)],
    sinks := [{ path := busyDownload.filePath, bytes := [1, 2], closed := false }],
    outbox := [] }

/-- Trace with two download requests to the same client in flight at once,
a chunk of each session arriving over the same connection. -/
def twoSessionTrace : List Event :=
  [Event.wsMessage 1 (Msg.register (chars ("c"))) 0,
   Event.apiDownload (chars ("c")) 100,
   Event.wsMessage 1
     (Msg.fileChunk (chars ("c")) (downloadIdAt 100) (base64Encode [1, 2, 3]) 0) 101,
   Event.apiDownload (chars ("c")) 250,
   Event.wsMessage 1
     (Msg.fileChunk (chars ("c")) (downloadIdAt 250) (base64Encode [4, 5]) 0) 251]

/-- Trace where a chunk bearing a completed session's id arrives after the
completion message of that session. -/
def staleChunkTrace : List Event :=
  [Event.wsMessage 1 (Msg.register (chars ("c"))) 0,
   Event.wsMessage 1
     (Msg.fileChunk (chars ("c")) (downloadIdAt 7) (base64Encode [1, 2]) 0) 1,
   Event.wsMessage 1 (Msg.fileComplete (chars ("c")) (downloadIdAt 7) 1 2) 2,
   Event.wsMessage 1
     (Msg.fileChunk (chars ("c")) (downloadIdAt 7) (base64Encode [3]) 1) 3]

/-- Trace where one connection registers under two client ids and closes. -/
def twoIdsOneConnTrace : List Event :=
  [Event.wsMessage 1 (Msg.register (chars ("a"))) 0,
   Event.wsMessage 1 (Msg.register (chars ("b"))) 1,
   Event.wsClose 1]

/-- Trace where a connection closes while its download is mid-transfer. -/
def disconnectTrace : List Event :=
  [Event.wsMessage 1 (Msg.register (chars ("c"))) 0,
   Event.wsMessage 1
     (Msg.fileChunk (chars ("c")) (downloadIdAt 7) (base64Encode [1, 2]) 0) 1,
   Event.wsClose 1]

/-- Trace where an error envelope arrives while a sink is open. -/
def errorAfterChunkTrace : List Event :=
  [Event.wsMessage 1 (Msg.register (chars ("c"))) 0,
   Event.wsMessage 1
     (Msg.fileChunk (chars ("c")) (downloadIdAt 7) (base64Encode [1, 2]) 0) 1,
   Event.wsMessage 1
     (Msg.error (chars ("c")) (downloadIdAt 7) (chars ("File not found"))) 2]

/-- Trace with two download requests issued in the same millisecond. -/
def sameMillisTrace : List Event :=
  [Event.wsMessage 1 (Msg.register (chars ("c"))) 0,
   Event.apiDownload (chars ("c")) 1000,
   Event.apiDownload (chars ("c")) 1000]

/-! ## Codec lemmas -/

/-- Table lookup of an encoded six-bit value recovers the value (all 64 cases). -/
theorem charSextet_sextetChar_fin :
    ∀ n : Fin 64, charSextet (sextetChar n.val) = n.val := by decide

/-- Table lookup of an encoded six-bit value recovers the value. -/
theorem charSextet_sextetChar {n : Nat} (h : n < 64) :
    charSextet (sextetChar n) = n :=
  charSextet_sextetChar_fin ⟨n, h⟩

/-- No alphabet character is the padding character (all 64 cases). -/
theorem sextetChar_ne_pad_fin : ∀ n : Fin 64, sextetChar n.val ≠ '=' := by decide

/-- No alphabet character is the padding character. -/
theorem sextetChar_ne_pad {n : Nat} (h : n < 64) : sextetChar n ≠ '=' :=
  sextetChar_ne_pad_fin ⟨n, h⟩

/-- Base64 decoding inverts base64 encoding on byte lists. -/
theorem base64Decode_base64Encode :
    ∀ l : List Nat, (∀ b ∈ l, b < 256) → base64Decode (base64Encode l) = l := by
  intro l
  induction l using base64Encode.induct with
  | case1 => intro _; rfl
  | case2 b0 =>
      intro h
      have hb0 : b0 < 256 := h b0 (by simp)
      simp only [base64Encode, base64Decode, if_true]
      rw [charSextet_sextetChar (by omega), charSextet_sextetChar (by omega)]
      simp only [List.cons.injEq, and_true]
      omega
  | case3 b0 b1 =>
      intro h
      have hb0 : b0 < 256 := h b0 (by simp)
      have hb1 : b1 < 256 := h b1 (by simp)
      simp only [base64Encode, base64Decode]
      rw [if_neg (sextetChar_ne_pad (by omega))]
      simp only [if_true]
      rw [charSextet_sextetChar (by omega), charSextet_sextetChar (by omega),
        charSextet_sextetChar (by omega)]
      simp only [List.cons.injEq, and_true]
      omega
  | case4 b0 b1 b2 rest ih =>
      intro h
      have hb0 : b0 < 256 := h b0 (by simp)
      have hb1 : b1 < 256 := h b1 (by simp)
      have hb2 : b2 < 256 := h b2 (by simp)
      simp only [base64Encode, base64Decode]
      rw [if_neg (sextetChar_ne_pad (by omega)),
        if_neg (sextetChar_ne_pad (by omega)),
        charSextet_sextetChar (by omega), charSextet_sextetChar (by omega),
        charSextet_sextetChar (by omega), charSextet_sextetChar (by omega),
        ih (fun b hb => h b (by simp [hb]))]
      simp only [List.cons.injEq, and_true]
      omega

/-- Claim C1: for every byte sequence `B`, if the sender splits `B` into
chunks of at most the configured maximum size and base64-encodes each chunk,
and the receiver decodes each payload with base64 and appends it to the sink
in emitted (arrival) order, then the concatenated sink contents equal `B`
exactly. -/
theorem c1_round_trip (B : List Nat) (k : Nat) (cs : List (List Nat))
    (hsplit : flattenBytes cs = B)
    (hsize : ∀ c ∈ cs, c.length ≤ k)
    (hB : ∀ b ∈ B, b < 256) :
    receiverAssemble (cs.map base64Encode) = B := by
  subst hsplit
  induction cs with
  | nil => rfl
  | cons c rest ih =>
      simp only [List.map_cons, receiverAssemble, flattenBytes]
      rw [base64Decode_base64Encode c
          (fun b hb => hB b (by simp [flattenBytes, hb])),
        ih (fun c2 hc2 => hsize c2 (by simp [hc2]))
          (fun b hb => hB b (by simp [flattenBytes, hb]))]

/-- Witness for C1 at a concrete split. -/
theorem c1_round_trip_witness :
    flattenBytes [[72, 105], [33]] = [72, 105, 33]
    ∧ (∀ c ∈ [[72, 105], [33]], List.length c ≤ 2)
    ∧ (∀ b ∈ [72, 105, 33], b < 256)
    ∧ receiverAssemble (List.map base64Encode [[72, 105], [33]]) = [72, 105, 33] :=
  ⟨by decide, by decide, by decide,
   c1_round_trip [72, 105, 33] 2 [[72, 105], [33]] (by decide) (by decide)
     (by decide)⟩

/-- Sequence indices emitted by the sender loop are consecutive from its
running counter. -/
theorem chunkIndices_senderLoop (cid did : List Char) (fsz : Nat) :
    ∀ (cs : List (List Nat)) (i tb : Nat),
      chunkIndices (senderLoop cid did fsz cs i tb) = List.range' i cs.length := by
  intro cs
  induction cs with
  | nil => intro i tb; rfl
  | cons c rest ih =>
      intro i tb
      simp only [senderLoop, chunkIndices, List.length_cons, List.range'_succ, ih]

/-- The sender loop emits exactly one completion envelope, carrying the final
value of the chunk counter and the stat size. -/
theorem completeInfos_senderLoop (cid did : List Char) (fsz : Nat) :
    ∀ (cs : List (List Nat)) (i tb : Nat),
      completeInfos (senderLoop cid did fsz cs i tb) = [(i + cs.length, fsz)] := by
  intro cs
  induction cs with
  | nil => intro i tb; simp [senderLoop, completeInfos]
  | cons c rest ih =>
      intro i tb
      simp only [senderLoop, completeInfos, ih, List.length_cons,
        List.cons.injEq, Prod.mk.injEq, and_true]
      omega

/-- The sender loop never emits an empty message list. -/
theorem senderLoop_ne_nil (cid did : List Char) (fsz : Nat)
    (cs : List (List Nat)) (i tb : Nat) :
    senderLoop cid did fsz cs i tb ≠ [] := by
  cases cs <;> simp [senderLoop]

/-- Last element of a cons with a nonempty tail. -/
theorem getLast?_cons_of_ne_nil {α : Type} (a : α) {l : List α} (h : l ≠ []) :
    (a :: l).getLast? = l.getLast? := by
  cases l with
  | nil => exact absurd rfl h
  | cons b t => simp [List.getLast?_cons_cons]

/-- The completion envelope is the last message the sender loop emits. -/
theorem getLast_senderLoop (cid did : List Char) (fsz : Nat) :
    ∀ (cs : List (List Nat)) (i tb : Nat),
      (senderLoop cid did fsz cs i tb).getLast? =
        some (Msg.fileComplete cid did (i + cs.length) fsz) := by
  intro cs
  induction cs with
  | nil => intro i tb; simp [senderLoop]
  | cons c rest ih =>
      intro i tb
      show (Msg.fileChunk cid did (base64Encode c) i ::
          senderLoop cid did fsz rest (i + 1) (tb + c.length)).getLast? = _
      rw [getLast?_cons_of_ne_nil _ (senderLoop_ne_nil cid did fsz rest _ _), ih]
      have harith : i + 1 + rest.length = i + rest.length.succ := by omega
      rw [harith]
      rfl

/-- Claim C2: for every source file of `n` chunks (`n` may be 0), the sender
emits `file-chunk` messages whose sequence indices are exactly
`0, 1, ..., n-1` in order with no gaps or repeats, followed by exactly one
`file-complete` message (the last message emitted) whose `totalChunks` equals
`n` and whose `fileSize` equals the file's byte size; for a 0-byte source
this is a single `file-complete` with `totalChunks = 0` and `fileSize = 0`
and no prior chunk. -/
theorem c2_sender_sequence (B : List Nat) (k : Nat) (cid did : List Char) :
    chunkIndices (handleDownloadRequest cid did (some B) k) =
      List.range ((chunksOf k B).length)
    ∧ completeInfos (handleDownloadRequest cid did (some B) k) =
      [((chunksOf k B).length, B.length)]
    ∧ (handleDownloadRequest cid did (some B) k).getLast? =
      some (Msg.fileComplete cid did ((chunksOf k B).length) B.length)
    ∧ (B = [] → handleDownloadRequest cid did (some B) k =
        [Msg.fileComplete cid did 0 0]) := by
  refine ⟨?_, ?_, ?_, ?_⟩
  · show chunkIndices (senderLoop cid did B.length (chunksOf k B) 0 0) = _
    rw [chunkIndices_senderLoop, List.range_eq_range']
  · show completeInfos (senderLoop cid did B.length (chunksOf k B) 0 0) = _
    rw [completeInfos_senderLoop]
    simp
  · show (senderLoop cid did B.length (chunksOf k B) 0 0).getLast? = _
    rw [getLast_senderLoop]
    simp
  · intro h
    subst h
    rfl

/-- Witness for C2, discharging the 0-byte branch at a concrete input. -/
theorem c2_sender_sequence_witness :
    handleDownloadRequest (chars ("c")) (chars ("d")) (some []) 3 =
      [Msg.fileComplete (chars ("c")) (chars ("d")) 0 0] :=
  (c2_sender_sequence [] 3 (chars ("c")) (chars ("d"))).2.2.2 rfl

/-- Claim C3: `requestFileDownload` fails with the client-not-connected error
iff the registry has no entry for the client id at call time; when an entry
exists, it appends exactly one `download-request` envelope for that client's
connection to the sent-message log and returns
`{clientId, downloadId, status: 'initiated'}` at once, the registry and
sinks untouched (no chunk or completion is awaited). -/
theorem c3_request_download (st : ServerState) (cid : List Char) (now : Nat) :
    (lookupClient st.clients cid = none →
      requestFileDownload st cid now =
        Except.error (chars ("Client ") ++ cid ++ chars (" is not connected")))
    ∧ (∀ client, lookupClient st.clients cid = some client →
        requestFileDownload st cid now =
          Except.ok
            ({ clientId := cid, downloadId := downloadIdAt now,
               status := chars ("initiated") },
             { st with outbox := st.outbox ++
                 [(client.wsId, Msg.downloadRequest (downloadIdAt now))] })) := by
  constructor
  · intro h
    simp [requestFileDownload, h]
  · intro client h
    simp [requestFileDownload, h]

/-- Witness for C3: a registered client is accepted with one request sent, an
unknown client is rejected. -/
theorem c3_request_download_witness :
    requestFileDownload idleState (chars ("c")) 5 =
      Except.ok
        ({ clientId := chars ("c"), downloadId := downloadIdAt 5,
           status := chars ("initiated") },
         { idleState with outbox := idleState.outbox ++
             [(idleEntry.wsId, Msg.downloadRequest (downloadIdAt 5))] })
    ∧ requestFileDownload initialState (chars ("ghost")) 5 =
      Except.error
        (chars ("Client ") ++ chars ("ghost") ++ chars (" is not connected")) :=
  ⟨(c3_request_download idleState (chars ("c")) 5).2 idleEntry (by decide),
   (c3_request_download initialState (chars ("ghost")) 5).1 rfl⟩

/-! ## Registry lemmas -/

/-- One-step unfolding of `lookupClient` on a cons cell. -/
theorem lookupClient_cons (k : List Char) (v : ClientEntry)
    (rest : List (List Char × ClientEntry)) (key : List Char) :
    lookupClient ((k, v) :: rest) key =
      if k = key then some v else lookupClient rest key := rfl

/-- One-step unfolding of `clientsSet` on a cons cell. -/
theorem clientsSet_cons (k : List Char) (w : ClientEntry)
    (rest : List (List Char × ClientEntry)) (key : List Char) (v : ClientEntry) :
    clientsSet ((k, w) :: rest) key v =
      if k = key then (k, v) :: rest else (k, w) :: clientsSet rest key v := rfl

/-- One-step unfolding of `removeFirstByWs` on a cons cell. -/
theorem removeFirstByWs_cons (k : List Char) (v : ClientEntry)
    (rest : List (List Char × ClientEntry)) (w : Nat) :
    removeFirstByWs ((k, v) :: rest) w =
      if v.wsId = w then rest else (k, v) :: removeFirstByWs rest w := rfl

/-- A key that is not among the map's keys has no value. -/
theorem lookupClient_eq_none_of_not_mem :
    ∀ (m : List (List Char × ClientEntry)) (cid : List Char),
      cid ∉ m.map Prod.fst → lookupClient m cid = none := by
  intro m
  induction m with
  | nil => intro cid _; rfl
  | cons p rest ih =>
      intro cid h
      obtain ⟨k, v⟩ := p
      simp only [List.map_cons, List.mem_cons, not_or] at h
      have hk : ¬(k = cid) := fun hk => h.1 hk.symm
      rw [lookupClient_cons, if_neg hk]
      exact ih cid h.2

/-- Setting a key makes it readable back. -/
theorem lookupClient_clientsSet_self :
    ∀ (m : List (List Char × ClientEntry)) (cid : List Char) (v : ClientEntry),
      lookupClient (clientsSet m cid v) cid = some v := by
  intro m
  induction m with
  | nil => intro cid v; simp [clientsSet, lookupClient]
  | cons p rest ih =>
      intro cid v
      obtain ⟨k, w⟩ := p
      rw [clientsSet_cons]
      by_cases hk : k = cid
      · rw [if_pos hk, lookupClient_cons, if_pos hk]
      · rw [if_neg hk, lookupClient_cons, if_neg hk]
        exact ih cid v

/-- Every entry of `clientsSet m k v` is the new pair or an entry of `m`. -/
theorem mem_clientsSet :
    ∀ (m : List (List Char × ClientEntry)) (k : List Char) (v : ClientEntry)
      (e : List Char × ClientEntry),
      e ∈ clientsSet m k v → e = (k, v) ∨ e ∈ m := by
  intro m
  induction m with
  | nil => intro k v e he; simp [clientsSet] at he; simp [he]
  | cons p rest ih =>
      intro k v e he
      obtain ⟨k2, w⟩ := p
      rw [clientsSet_cons] at he
      by_cases hk : k2 = k
      · rw [if_pos hk] at he
        rcases List.mem_cons.mp he with h1 | h1
        · left; rw [h1, hk]
        · right; exact List.mem_cons_of_mem _ h1
      · rw [if_neg hk] at he
        rcases List.mem_cons.mp he with h1 | h1
        · right; rw [h1]; exact List.mem_cons_self _ _
        · rcases ih k v e h1 with h2 | h2
          · left; exact h2
          · right; exact List.mem_cons_of_mem _ h2

/-- Keys of `clientsSet m k v` are those of `m`, with `k` appended when new. -/
theorem keys_clientsSet :
    ∀ (m : List (List Char × ClientEntry)) (k : List Char) (v : ClientEntry),
      (clientsSet m k v).map Prod.fst = m.map Prod.fst
      ∨ (clientsSet m k v).map Prod.fst = m.map Prod.fst ++ [k] := by
  intro m
  induction m with
  | nil => intro k v; right; rfl
  | cons p rest ih =>
      intro k v
      obtain ⟨k2, w⟩ := p
      rw [clientsSet_cons]
      by_cases hk : k2 = k
      · left; rw [if_pos hk]; simp [hk]
      · rw [if_neg hk]
        rcases ih k v with h | h
        · left; simp [List.map_cons, h]
        · right; simp [List.map_cons, h]

/-- Setting a key preserves key uniqueness. -/
theorem keys_nodup_clientsSet (m : List (List Char × ClientEntry))
    (k : List Char) (v : ClientEntry) (hnd : (m.map Prod.fst).Nodup) :
    ((clientsSet m k v).map Prod.fst).Nodup := by
  induction m with
  | nil => simp [clientsSet]
  | cons p rest ih =>
      obtain ⟨k2, w⟩ := p
      simp only [List.map_cons, List.nodup_cons] at hnd
      rw [clientsSet_cons]
      by_cases hk : k2 = k
      · rw [if_pos hk]
        simp only [List.map_cons, List.nodup_cons]
        exact ⟨hnd.1, hnd.2⟩
      · rw [if_neg hk]
        simp only [List.map_cons, List.nodup_cons]
        refine ⟨?_, ih hnd.2⟩
        intro hmem
        rcases keys_clientsSet rest k v with h | h
        · rw [h] at hmem; exact hnd.1 hmem
        · rw [h] at hmem
          rcases List.mem_append.mp hmem with h2 | h2
          · exact hnd.1 h2
          · simp only [List.mem_singleton] at h2
            exact hk h2

/-- When the looked-up client is the only entry on connection `w` and keys
are unique, the close-handler scan removes precisely that entry, so the key
is gone afterwards. -/
theorem removeFirstByWs_lookup_none :
    ∀ (m : List (List Char × ClientEntry)) (w : Nat) (cid : List Char)
      (client : ClientEntry),
      lookupClient m cid = some client → client.wsId = w →
      (∀ e ∈ m, e.2.wsId = w → e.1 = cid) → (m.map Prod.fst).Nodup →
      lookupClient (removeFirstByWs m w) cid = none := by
  intro m
  induction m with
  | nil => intro w cid client hc _ _ _; simp [lookupClient] at hc
  | cons p rest ih =>
      intro w cid client hc hw honly hnd
      obtain ⟨k, v⟩ := p
      simp only [List.map_cons, List.nodup_cons] at hnd
      rw [lookupClient_cons] at hc
      rw [removeFirstByWs_cons]
      by_cases hk : k = cid
      · rw [if_pos hk] at hc
        have hv : v = client := by
          injection hc
        rw [if_pos (by rw [hv, hw])]
        rw [hk] at hnd
        exact lookupClient_eq_none_of_not_mem rest cid hnd.1
      · rw [if_neg hk] at hc
        have hvw : ¬(v.wsId = w) := fun hv =>
          hk (honly (k, v) (List.mem_cons_self _ _) hv)
        rw [if_neg hvw, lookupClient_cons, if_neg hk]
        exact ih w cid client hc hw
          (fun e he hew => honly e (List.mem_cons_of_mem _ he) hew) hnd.2

/-! ## Sink lemmas -/

/-- Writing through the handle of a freshly appended sink updates only that
sink. -/
theorem sinkWrite_append_last :
    ∀ (xs : List Sink) (s : Sink) (bs : List Nat),
      sinkWrite (xs ++ [s]) xs.length bs =
        xs ++ [{ s with bytes := s.bytes ++ bs }] := by
  intro xs
  induction xs with
  | nil => intro s bs; rfl
  | cons x rest ih =>
      intro s bs
      show x :: sinkWrite (rest ++ [s]) rest.length bs =
        x :: (rest ++ [{ s with bytes := s.bytes ++ bs }])
      rw [ih]

/-! ## Claims about the receiver's session handling -/

/-- Claim C6 (corrected): after `register(id)` on a connection followed by a
close of that same connection, `lookup(id)` misses — provided no other
registry entry references the same connection.  (Without that proviso the
claim fails: the close handler deletes only the first matching entry and
stops, see the counterexample.) -/
theorem c6_register_close (st : ServerState) (w : Nat) (cid : List Char)
    (now : Nat)
    (hw : ∀ e ∈ st.clients, e.2.wsId ≠ w)
    (hnd : (st.clients.map Prod.fst).Nodup) :
    lookupClient
      (handleWsClose (handleClientRegistration st w cid now) w).clients cid =
      none := by
  apply removeFirstByWs_lookup_none _ w cid
    { wsId := w, id := cid, connectedAt := now, currentDownload := none }
  · exact lookupClient_clientsSet_self st.clients cid _
  · rfl
  · intro e he hew
    rcases mem_clientsSet st.clients cid _ e he with h | h
    · rw [h]
    · exact absurd hew (hw e h)
  · exact keys_nodup_clientsSet st.clients cid _ hnd

/-- Witness for C6 on the empty registry. -/
theorem c6_register_close_witness :
    lookupClient
      (handleWsClose (handleClientRegistration initialState 1 (chars ("a")) 0)
        1).clients (chars ("a")) = none :=
  c6_register_close initialState 1 (chars ("a")) 0
    (by intro e he _; simp [initialState] at he)
    (by simp [initialState])

/-- Counterexample to C6 as stated: connection 1 registers first as `a`,
then as `b`, and closes; the scan deletes only the first matching entry and
breaks, so `lookup(b)` still succeeds although `register(b)` was immediately
followed by the close of its connection. -/
theorem c6_counterexample :
    (lookupClient (serverRun initialState twoIdsOneConnTrace).clients
        (chars ("b"))).isSome = true
    ∧ lookupClient (serverRun initialState twoIdsOneConnTrace).clients
        (chars ("a")) = none := by
  decide

/-- Claim C7 (corrected): when a connection closes, the registry entry is
removed (under the same single-entry proviso as C6) and the session record is
discarded with it — but the sink is NOT released: the close handler touches
nothing except the `clients` map, so the write stream of the abandoned
download stays open. -/
theorem c7_close_leaves_sink_open (st : ServerState) (w : Nat)
    (cid : List Char) (client : ClientEntry) (dl : Download)
    (hc : lookupClient st.clients cid = some client)
    (hw : client.wsId = w)
    (hd : client.currentDownload = some dl)
    (honly : ∀ e ∈ st.clients, e.2.wsId = w → e.1 = cid)
    (hnd : (st.clients.map Prod.fst).Nodup) :
    (handleWsClose st w).sinks = st.sinks
    ∧ (handleWsClose st w).outbox = st.outbox
    ∧ lookupClient (handleWsClose st w).clients cid = none :=
  ⟨rfl, rfl, removeFirstByWs_lookup_none st.clients w cid client hc hw honly hnd⟩

/-- Witness for C7 on a state with one busy client. -/
theorem c7_close_leaves_sink_open_witness :
    (handleWsClose busyState 1).sinks = busyState.sinks
    ∧ (handleWsClose busyState 1).outbox = busyState.outbox
    ∧ lookupClient (handleWsClose busyState 1).clients (chars ("c")) = none :=
  c7_close_leaves_sink_open busyState 1 (chars ("c")) busyEntry busyDownload
    (by decide) rfl rfl
    (by intro e he hew; simp [busyState] at he; rw [he])
    (by decide)

/-- Counterexample to C7 as stated: the connection closes mid-transfer; the
registry entry disappears but the sink's write stream is never closed. -/
theorem c7_counterexample :
    (serverRun initialState disconnectTrace).clients = []
    ∧ (serverRun initialState disconnectTrace).sinks.map Sink.closed =
        [false]
    ∧ (serverRun initialState disconnectTrace).sinks.map Sink.bytes =
        [[1, 2]] := by
  decide

/-- Claim C8 (corrected): processing an `error` envelope changes nothing at
all on the server — the handler only logs, so the session record survives,
the client keeps its active download, and the sink stays open. -/
theorem c8_error_message_no_op (st : ServerState) (w : Nat)
    (cid did emsg : List Char) (now : Nat) :
    serverStep st (Event.wsMessage w (Msg.error cid did emsg) now) = st := rfl

/-- Counterexample to C8 as stated: an error envelope arrives while a sink is
open; afterwards the client still has an active download and the sink is
still open — nothing was aborted, removed or closed. -/
theorem c8_counterexample :
    hasActiveDownload (serverRun initialState errorAfterChunkTrace)
        (chars ("c")) = true
    ∧ (serverRun initialState errorAfterChunkTrace).sinks.map Sink.closed =
        [false]
    ∧ currentDownloadIdOf (serverRun initialState errorAfterChunkTrace)
        (chars ("c")) = some (downloadIdAt 7) := by
  decide

/-- Claim C4 (corrected): a second `requestFileDownload` for a client with an
open download is neither rejected nor supersedes the running session — it is
accepted unchanged (only the sent-message log grows), and a chunk bearing ANY
`downloadId` (in particular the second session's) is appended to the FIRST
session's open sink while the session record keeps the first id: chunks of
two sessions of one connection are silently interleaved into one sink. -/
theorem c4_second_request_interleaves (st : ServerState)
    (cid did2 ch : List Char) (now now2 : Nat)
    (client : ClientEntry) (dl : Download)
    (hc : lookupClient st.clients cid = some client)
    (hd : client.currentDownload = some dl) :
    requestFileDownload st cid now2 =
      Except.ok
        ({ clientId := cid, downloadId := downloadIdAt now2,
           status := chars ("initiated") },
         { st with outbox := st.outbox ++
             [(client.wsId, Msg.downloadRequest (downloadIdAt now2))] })
    ∧ (handleFileChunk st cid did2 ch now).sinks =
        sinkWrite st.sinks dl.sinkIdx (base64Decode ch)
    ∧ lookupClient (handleFileChunk st cid did2 ch now).clients cid =
        some ({ client with
          currentDownload :=
            some ({ dl with chunksReceived := dl.chunksReceived + 1 }) }) := by
  refine ⟨?_, ?_, ?_⟩
  · simp [requestFileDownload, hc]
  · simp [handleFileChunk, hc, hd]
  · simp [handleFileChunk, hc, hd, lookupClient_clientsSet_self]

/-- Witness for C4 on a state with one busy client. -/
theorem c4_second_request_interleaves_witness :
    requestFileDownload busyState (chars ("c")) 8 =
      Except.ok
        ({ clientId := chars ("c"), downloadId := downloadIdAt 8,
           status := chars ("initiated") },
         { busyState with outbox := busyState.outbox ++
             [(busyEntry.wsId, Msg.downloadRequest (downloadIdAt 8))] })
    ∧ (handleFileChunk busyState (chars ("c")) (downloadIdAt 8)
        (base64Encode [7]) 9).sinks =
        sinkWrite busyState.sinks busyDownload.sinkIdx
          (base64Decode (base64Encode [7]))
    ∧ lookupClient (handleFileChunk busyState (chars ("c")) (downloadIdAt 8)
        (base64Encode [7]) 9).clients (chars ("c")) =
        some ({ busyEntry with
          currentDownload :=
            some ({ busyDownload with
              chunksReceived := busyDownload.chunksReceived + 1 }) }) :=
  c4_second_request_interleaves busyState (chars ("c")) (downloadIdAt 8)
    (base64Encode [7]) 9 8 busyEntry busyDownload (by decide) rfl

/-- Counterexample to C4 as stated: two sessions are initiated for client `c`
(two `download-request` envelopes sent, none rejected), their chunks carry
distinct session ids, yet all bytes land in the single sink opened for the
first session and the session record still holds the first id. -/
theorem c4_counterexample :
    (serverRun initialState twoSessionTrace).sinks.map Sink.bytes =
      [[1, 2, 3, 4, 5]]
    ∧ currentDownloadIdOf (serverRun initialState twoSessionTrace)
        (chars ("c")) = some (downloadIdAt 100)
    ∧ downloadIdAt 100 ≠ downloadIdAt 250
    ∧ downloadRequestCount (serverRun initialState twoSessionTrace).outbox =
        2 := by
  decide

/-- Claim C5 (corrected): once the completion handler has discarded the
session record, a further chunk bearing the same (now stale) session id is
NOT ignored: the receiver treats it as the start of a new download, opens a
fresh sink — at the very same path — and writes the decoded bytes to it. -/
theorem c5_stale_chunk_opens_new_sink (st : ServerState)
    (cid did ch : List Char) (now : Nat) (client : ClientEntry)
    (hc : lookupClient st.clients cid = some client)
    (hd : client.currentDownload = none) :
    (handleFileChunk st cid did ch now).sinks =
      st.sinks ++ [{ path := mkFilePath cid did, bytes := base64Decode ch,
                     closed := false }]
    ∧ lookupClient (handleFileChunk st cid did ch now).clients cid =
        some ({ client with
          currentDownload :=
            some ({ id := did, filePath := mkFilePath cid did,
                    sinkIdx := st.sinks.length, chunksReceived := 1,
                    startTime := now }) }) := by
  constructor
  · simp [handleFileChunk, hc, hd, sinkWrite_append_last]
  · simp [handleFileChunk, hc, hd, lookupClient_clientsSet_self]

/-- Witness for C5 on a state with one idle client. -/
theorem c5_stale_chunk_opens_new_sink_witness :
    (handleFileChunk idleState (chars ("c")) (downloadIdAt 7)
        (base64Encode [3]) 3).sinks =
      idleState.sinks ++
        [{ path := mkFilePath (chars ("c")) (downloadIdAt 7),
           bytes := base64Decode (base64Encode [3]), closed := false }]
    ∧ lookupClient (handleFileChunk idleState (chars ("c")) (downloadIdAt 7)
        (base64Encode [3]) 3).clients (chars ("c")) =
        some ({ idleEntry with
          currentDownload :=
            some ({ id := downloadIdAt 7,
                    filePath := mkFilePath (chars ("c")) (downloadIdAt 7),
                    sinkIdx := idleState.sinks.length, chunksReceived := 1,
                    startTime := 3 }) }) :=
  c5_stale_chunk_opens_new_sink idleState (chars ("c")) (downloadIdAt 7)
    (base64Encode [3]) 3 idleEntry (by decide) rfl

/-- Counterexample to C5 as stated: after `file-complete` for session
`download_7`, a further chunk with that same session id opens a second sink
at the same path and writes bytes into it, instead of being ignored. -/
theorem c5_counterexample :
    (serverRun initialState staleChunkTrace).sinks.map
        (fun s => (s.path, s.bytes, s.closed)) =
      [(mkFilePath (chars ("c")) (downloadIdAt 7), [1, 2], true),
       (mkFilePath (chars ("c")) (downloadIdAt 7), [3], false)]
    ∧ hasActiveDownload (serverRun initialState staleChunkTrace)
        (chars ("c")) = true := by
  decide

/-- Claim C10: `file-chunk` and `file-complete` are routed solely by the
`clientId` field inside the message — the connection they arrived on is never
consulted, so delivery over any connection has the same effect — and when
that `clientId` is not registered the handlers return with the state
completely unchanged. -/
theorem c10_routing_by_clientId (st : ServerState) (w1 w2 : Nat)
    (cid did ch : List Char) (ci tc fsz now : Nat) :
    serverStep st (Event.wsMessage w1 (Msg.fileChunk cid did ch ci) now) =
      serverStep st (Event.wsMessage w2 (Msg.fileChunk cid did ch ci) now)
    ∧ serverStep st (Event.wsMessage w1 (Msg.fileComplete cid did tc fsz) now) =
      serverStep st (Event.wsMessage w2 (Msg.fileComplete cid did tc fsz) now)
    ∧ (lookupClient st.clients cid = none →
        serverStep st (Event.wsMessage w1 (Msg.fileChunk cid did ch ci) now) = st
        ∧ serverStep st
            (Event.wsMessage w1 (Msg.fileComplete cid did tc fsz) now) = st) := by
  refine ⟨rfl, rfl, ?_⟩
  intro h
  constructor
  · show handleFileChunk st cid did ch now = st
    simp [handleFileChunk, h]
  · show handleFileComplete st cid did tc fsz = st
    simp [handleFileComplete, h]

/-- Witness for C10: a chunk and a completion for an unregistered client id
leave the empty state unchanged. -/
theorem c10_routing_by_clientId_witness :
    serverStep initialState
      (Event.wsMessage 1
        (Msg.fileChunk (chars ("g")) (downloadIdAt 1) (base64Encode [1]) 0) 5) =
      initialState
    ∧ serverStep initialState
      (Event.wsMessage 1
        (Msg.fileComplete (chars ("g")) (downloadIdAt 1) 1 1) 5) =
      initialState :=
  (c10_routing_by_clientId initialState 1 2 (chars ("g")) (downloadIdAt 1)
    (base64Encode [1]) 0 1 1 5).2.2 rfl

/-! ## Decimal rendering lemmas -/

/-- Rendering zero digits leaves the accumulator. -/
theorem natToDecimalGo_zero (f : Nat) (acc : List Char) :
    natToDecimalGo f 0 acc = acc := by
  cases f <;> rfl

/-- The accumulator is appended after the rendered digits. -/
theorem natToDecimalGo_append :
    ∀ (f n : Nat) (acc : List Char), n ≤ f →
      natToDecimalGo f n acc = natToDecimalGo f n [] ++ acc := by
  intro f
  induction f with
  | zero =>
      intro n acc h
      have hn : n = 0 := by omega
      subst hn
      rfl
  | succ g ih =>
      intro n acc h
      cases n with
      | zero => rfl
      | succ m =>
          show natToDecimalGo g ((m + 1) / 10)
              (digitChar ((m + 1) % 10) :: acc) = _
          have hstep : natToDecimalGo (g + 1) (m + 1) [] =
              natToDecimalGo g ((m + 1) / 10) [digitChar ((m + 1) % 10)] := rfl
          rw [hstep,
            ih ((m + 1) / 10) (digitChar ((m + 1) % 10) :: acc) (by omega),
            ih ((m + 1) / 10) [digitChar ((m + 1) % 10)] (by omega)]
          simp

/-- The rendering does not depend on the fuel once the fuel suffices. -/
theorem natToDecimalGo_fuel :
    ∀ (f g n : Nat) (acc : List Char), n ≤ f → n ≤ g →
      natToDecimalGo f n acc = natToDecimalGo g n acc := by
  intro f
  induction f with
  | zero =>
      intro g n acc hf _
      have hn : n = 0 := by omega
      subst hn
      rw [natToDecimalGo_zero, natToDecimalGo_zero]
  | succ f2 ih =>
      intro g n acc hf hg
      cases n with
      | zero => rw [natToDecimalGo_zero, natToDecimalGo_zero]
      | succ m =>
          cases g with
          | zero => omega
          | succ g2 =>
              show natToDecimalGo f2 ((m + 1) / 10)
                  (digitChar ((m + 1) % 10) :: acc) =
                natToDecimalGo g2 ((m + 1) / 10)
                  (digitChar ((m + 1) % 10) :: acc)
              exact ih g2 ((m + 1) / 10) _ (by omega) (by omega)

/-- A decimal rendering is never empty. -/
theorem natToDecimal_ne_nil (n : Nat) : natToDecimal n ≠ [] := by
  cases n with
  | zero => simp [natToDecimal]
  | succ m =>
      show natToDecimalGo m ((m + 1) / 10) [digitChar ((m + 1) % 10)] ≠ []
      rw [natToDecimalGo_append m ((m + 1) / 10) _ (by omega)]
      simp

/-- Digit characters are distinct (all 100 cases). -/
theorem digitChar_inj_fin :
    ∀ a b : Fin 10, digitChar a.val = digitChar b.val → a.val = b.val := by
  decide

/-- Digit characters are distinct. -/
theorem digitChar_inj {a b : Nat} (ha : a < 10) (hb : b < 10)
    (h : digitChar a = digitChar b) : a = b :=
  digitChar_inj_fin ⟨a, ha⟩ ⟨b, hb⟩ h

/-- Cancellation of a final singleton on both sides of a list equation. -/
theorem append_singleton_inj {α : Type} {xs ys : List α} {a b : α}
    (h : xs ++ [a] = ys ++ [b]) : xs = ys ∧ a = b := by
  have hl : xs.length = ys.length := by
    have h2 := congrArg List.length h
    simp at h2
    omega
  obtain ⟨h1, h2⟩ := List.append_inj h hl
  refine ⟨h1, ?_⟩
  injection h2

/-- Cancellation of a common suffix. -/
theorem append_cancel_right_of_eq {α : Type} {xs ys zs : List α}
    (h : xs ++ zs = ys ++ zs) : xs = ys := by
  have hl : xs.length = ys.length := by
    have h2 := congrArg List.length h
    simp at h2
    omega
  exact List.append_inj_left h hl

/-- A nonzero number renders as its quotient's rendering (empty when the
quotient is zero) followed by its last digit. -/
theorem natToDecimal_succ_decomp (n : Nat) (hn : n ≠ 0) :
    natToDecimal n =
      (if n / 10 = 0 then [] else natToDecimal (n / 10)) ++
        [digitChar (n % 10)] := by
  cases n with
  | zero => exact absurd rfl hn
  | succ m =>
      show natToDecimalGo m ((m + 1) / 10) [digitChar ((m + 1) % 10)] = _
      rw [natToDecimalGo_append m ((m + 1) / 10) _ (by omega)]
      by_cases hq : (m + 1) / 10 = 0
      · rw [if_pos hq, hq, natToDecimalGo_zero]
      · rw [if_neg hq]
        congr 1
        have hd : natToDecimal ((m + 1) / 10) =
            natToDecimalGo ((m + 1) / 10) ((m + 1) / 10) [] := by
          rw [natToDecimal, if_neg hq]
        rw [hd]
        exact natToDecimalGo_fuel m ((m + 1) / 10) ((m + 1) / 10) []
          (by omega) (Nat.le_refl _)

/-- Decimal rendering is injective: distinct numbers render differently. -/
theorem natToDecimal_inj :
    ∀ m n : Nat, natToDecimal m = natToDecimal n → m = n := by
  intro m
  induction m using Nat.strong_induction_on with
  | _ m ih =>
    intro n h
    by_cases hm : m = 0
    · by_cases hn : n = 0
      · rw [hm, hn]
      · exfalso
        rw [hm] at h
        rw [natToDecimal_succ_decomp n hn] at h
        have h0 : natToDecimal 0 = [] ++ ['0'] := rfl
        rw [h0] at h
        obtain ⟨h1, h2⟩ := append_singleton_inj h
        have hq : n / 10 = 0 := by
          by_cases hq2 : n / 10 = 0
          · exact hq2
          · rw [if_neg hq2] at h1
            exact absurd h1.symm (natToDecimal_ne_nil _)
        have h3 : digitChar 0 = digitChar (n % 10) := h2
        have hr := digitChar_inj (by omega) (Nat.mod_lt n (by omega)) h3
        omega
    · by_cases hn : n = 0
      · exfalso
        rw [hn] at h
        rw [natToDecimal_succ_decomp m hm] at h
        have h0 : natToDecimal 0 = [] ++ ['0'] := rfl
        rw [h0] at h
        obtain ⟨h1, h2⟩ := append_singleton_inj h
        have hq : m / 10 = 0 := by
          by_cases hq2 : m / 10 = 0
          · exact hq2
          · rw [if_neg hq2] at h1
            exact absurd h1 (natToDecimal_ne_nil _)
        have h3 : digitChar (m % 10) = digitChar 0 := h2
        have hr := digitChar_inj (Nat.mod_lt m (by omega)) (by omega) h3
        omega
      · rw [natToDecimal_succ_decomp m hm, natToDecimal_succ_decomp n hn] at h
        obtain ⟨h1, h2⟩ := append_singleton_inj h
        have hmod : m % 10 = n % 10 :=
          digitChar_inj (Nat.mod_lt m (by omega)) (Nat.mod_lt n (by omega)) h2
        by_cases hqm : m / 10 = 0
        · by_cases hqn : n / 10 = 0
          · omega
          · rw [if_pos hqm, if_neg hqn] at h1
            exact absurd h1.symm (natToDecimal_ne_nil _)
        · by_cases hqn : n / 10 = 0
          · rw [if_neg hqm, if_pos hqn] at h1
            exact absurd h1 (natToDecimal_ne_nil _)
          · rw [if_neg hqm, if_neg hqn] at h1
            have hq := ih (m / 10) (by omega) (n / 10) h1
            omega

/-- Claim C9 (corrected): session identifiers generated at distinct
`Date.now()` millisecond timestamps are distinct, and then the two sink
paths of a client differ as well.  (As stated the claim is false: the id is
`download_` followed by the bare timestamp, with no random suffix, so two
calls in the same millisecond yield identical identifiers and, for the same
client, the same path — see the counterexample.) -/
theorem c9_session_ids (t1 t2 : Nat) (cid : List Char) (h : t1 ≠ t2) :
    downloadIdAt t1 ≠ downloadIdAt t2
    ∧ mkFilePath cid (downloadIdAt t1) ≠ mkFilePath cid (downloadIdAt t2) := by
  have hid : downloadIdAt t1 ≠ downloadIdAt t2 := by
    intro he
    rw [downloadIdAt, downloadIdAt] at he
    exact h (natToDecimal_inj t1 t2 (List.append_cancel_left he))
  refine ⟨hid, ?_⟩
  intro hp
  apply hid
  simp only [mkFilePath, mkFileName] at hp
  have h1 := List.append_cancel_left hp
  have h2 := append_cancel_right_of_eq h1
  exact List.append_cancel_left h2

/-- Witness for C9 at two distinct timestamps. -/
theorem c9_session_ids_witness :
    downloadIdAt 1 ≠ downloadIdAt 2
    ∧ mkFilePath (chars ("c")) (downloadIdAt 1) ≠
        mkFilePath (chars ("c")) (downloadIdAt 2) :=
  c9_session_ids 1 2 (chars ("c")) (by omega)

/-- Counterexample to C9 as stated: two distinct download requests issued in
the same millisecond produce two sessions whose identifiers are the very same
string `download_1000`, so the two sessions of client `c` also target the
same sink path. -/
theorem c9_counterexample :
    (serverRun initialState sameMillisTrace).outbox =
      [(1, Msg.registered (chars ("c"))),
       (1, Msg.downloadRequest (downloadIdAt 1000)),
       (1, Msg.downloadRequest (downloadIdAt 1000))]
    ∧ downloadRequestCount (serverRun initialState sameMillisTrace).outbox =
        2 := by
  decide
